import Mathlib

/-!
Shallow embedding of the stock-data ingestion pipeline (the StockDataAgent
class of the repository): the Alpha Vantage retry helper, the Yahoo Finance
fallback adapter, the bulk ingestion loop, the CSV flat store, the sidecar
metadata record, and the period-filtered query path.

Modelling conventions:
* JS numbers are rationals; the NaN-producing parses that the code guards
  against are modelled with Option (none = null/NaN), and the explicit
  zero-guards of the source are embedded as written.
* Calendar dates are integer UTC day numbers: the string sort of
  YYYY-MM-DD keys and the Date comparison of the source are both
  order-isomorphic to integer order on day numbers.
* The CSV file is Option (List PriceRow): none = file absent, some rows =
  a well-formed table (fixed header line plus one line per row, which is
  what createInitialCsv and the csv-writer produce).
* File and network effects are passed in explicitly: provider responses as
  values, the clock as an integer millisecond timestamp, write failures as
  booleans. Sleeping is accounted in seconds, not performed.
-/

namespace StockAgent

/-- One data row of the flat CSV store, as the adapters build it. -/
structure PriceRow where
  date : Int
  symbol : String
  name : String
  sector : String
  open_ : ℚ
  high : ℚ
  low : ℚ
  close : ℚ
  volume : Int
  adjustedClose : ℚ
  priceChange : ℚ
  priceChangePercent : ℚ
deriving DecidableEq

/-- One entry of the priceHistory array that getStockData returns. -/
structure HistRow where
  date : Int
  open_ : ℚ
  high : ℚ
  low : ℚ
  close : ℚ
  volume : Int
  adjustedClose : ℚ
deriving DecidableEq

/-- The reshaped per-symbol summary that getStockData returns. -/
structure StockSummary where
  symbol : String
  name : String
  sector : String
  currentPrice : ℚ
  previousClose : ℚ
  priceHistory : List HistRow
deriving DecidableEq

/-- One configured company: symbol, display name, sector. -/
structure SymbolSpec where
  symbol : String
  name : String
  sector : String
deriving DecidableEq

/-- One day of the Alpha Vantage daily time series, after parseFloat.
The adjusted close is Option: none models a NaN parse, which the source
replaces by the raw close. -/
structure DailyQuote where
  open_ : ℚ
  high : ℚ
  low : ℚ
  close : ℚ
  adjusted : Option ℚ
  volume : Int
deriving DecidableEq

/-- One Alpha Vantage HTTP outcome: a transport error (axios throw), or a
payload with optional Note / Error Message markers and an optional
Time Series (Daily) object, modelled as an association list keyed by day. -/
inductive AlphaResponse where
  | transportError (msg : String)
  | payload (note : Option String) (errorMessage : Option String)
            (timeSeries : Option (List (Int × DailyQuote)))
deriving DecidableEq

/-- Whether a response carries the rate-limit or error marker field
(data.Note or data.ErrorMessage truthy). -/
def markerOf : AlphaResponse → Bool
  | .transportError _ => false
  | .payload note errorMessage _ => note.isSome || errorMessage.isSome

/-- The message the source throws when the retry budget is exhausted:
data.Note, else the error message, else a fixed string. -/
def markerMessage : AlphaResponse → String
  | .transportError msg => msg
  | .payload note errorMessage _ =>
      note.getD (errorMessage.getD "Alpha Vantage error")

/-- The observable outcome of the callAlpha helper: the returned payload or
thrown message, the number of HTTP attempts made, and the total seconds
slept between attempts (the source sleeps backoffSec * 1000 ms). -/
structure CallResult where
  result : Except String (Option (List (Int × DailyQuote)))
  attempts : Nat
  sleptSec : Nat

/-- The recursion of callAlpha, structurally on remaining = maxAttempts -
attempt, so that remaining = 0 is exactly the condition attempt >=
maxAttempts of the source. The backoff before the retry is
min (60 * attempt) 180 seconds. -/
def callAlphaGo (responses : Nat → AlphaResponse) : Nat → Nat → CallResult
  | attempt, remaining =>
    match responses attempt with
    | .transportError msg => ⟨.error msg, 1, 0⟩
    | .payload note errorMessage ts =>
      if note.isSome || errorMessage.isSome then
        match remaining with
        | 0 => ⟨.error (note.getD (errorMessage.getD "Alpha Vantage error")), 1, 0⟩
        | remaining' + 1 =>
          let backoffSec := min (60 * attempt) 180
          let rest := callAlphaGo responses (attempt + 1) remaining'
          ⟨rest.result, rest.attempts + 1, rest.sleptSec + backoffSec⟩
      else ⟨.ok ts, 1, 0⟩

/-- The callAlpha helper of fetchCompanyData: issues provider requests,
retrying with linear-capped backoff while the payload carries a Note or
Error Message marker, failing once attempt reaches maxAttempts. -/
def callAlpha (maxAttempts : Nat) (responses : Nat → AlphaResponse)
    (attempt : Nat) : CallResult :=
  callAlphaGo responses attempt (maxAttempts - attempt)

/-- The toUpperCase coercion applied to symbols; ticker symbols are ASCII,
for which the character-wise uppercase map agrees with JS. -/
def toUpperStr (s : String) : String := ⟨s.data.map Char.toUpper⟩

/-- Default of parseInt(process.env.STOCK_MAX_RETRIES or 5). -/
def defaultMaxRetries : Nat := 5

/-- Default of parseInt(process.env.STOCK_DAYS or 30). -/
def defaultDays : Nat := 30

/-- Array.prototype.slice(-n): the trailing n elements, the whole list when
n = 0 (slice(-0) is slice(0)). -/
def sliceLast {α : Type} (n : Nat) (l : List α) : List α :=
  if n = 0 then l else l.drop (l.length - n)

/-- Decidable less-or-equal on Int as a relation value for insertionSort. -/
instance : DecidableRel (fun a b : Int => a ≤ b) := fun a b => Int.decLe a b

/-- Ascending sort of the time-series keys, as Object.keys(ts).sort() sorts
the YYYY-MM-DD strings chronologically. -/
def sortAscInt (l : List Int) : List Int :=
  l.insertionSort (fun a b => a ≤ b)

/-- Row built from one Alpha Vantage day: priceChange = close - open and
priceChangePercent = open ? (priceChange / open) * 100 : 0, with a NaN
adjusted close replaced by the raw close. -/
def mkAlphaRow (c : SymbolSpec) (date : Int) (d : DailyQuote) : PriceRow :=
  let priceChange := d.close - d.open_
  { date := date
    symbol := toUpperStr c.symbol
    name := c.name
    sector := c.sector
    open_ := d.open_
    high := d.high
    low := d.low
    close := d.close
    volume := d.volume
    adjustedClose := d.adjusted.getD d.close
    priceChange := priceChange
    priceChangePercent := if d.open_ = 0 then 0 else priceChange / d.open_ * 100 }

/-- The primary-path row construction of fetchCompanyData: the sorted key
list is clamped to the trailing historyDays keys, and each kept key is
mapped through its quote. -/
def alphaRows (days : Nat) (c : SymbolSpec) (ts : List (Int × DailyQuote)) :
    List PriceRow :=
  let dates := sliceLast days (sortAscInt (ts.map Prod.fst))
  dates.filterMap (fun d => (ts.lookup d).map (mkAlphaRow c d))

/-- The parallel arrays of the Yahoo chart payload; entries are Option
because the provider emits null holes. -/
structure YahooQuote where
  open_ : List (Option ℚ)
  high : List (Option ℚ)
  low : List (Option ℚ)
  close : List (Option ℚ)
  volume : List (Option Int)
deriving DecidableEq

/-- The usable part of a Yahoo chart response: timestamps (seconds, possibly
null) plus the quote arrays. -/
structure YahooChart where
  timestamp : List (Option Int)
  quote : YahooQuote
deriving DecidableEq

/-- Models parseFloat(x) or-else null: a missing entry parses to NaN and a
zero parses falsy, so both collapse to null. -/
def numOrNull (x : Option ℚ) : Option ℚ :=
  match x with
  | none => none
  | some v => if v = 0 then none else some v

/-- Whether a millisecond timestamp yields a valid JS Date (the isFinite
guard of the source); the JS Date range is plus or minus 8.64e15 ms. -/
def tsFinite (ms : Int) : Bool := ms.natAbs ≤ 8640000000000000

/-- UTC day number of a millisecond timestamp, modelling
toISOString().slice(0, 10). -/
def msToDay (ms : Int) : Int := Int.fdiv ms 86400000

/-- The index loop of fetchFromYahoo: skips indices with an invalid
timestamp or with a null/NaN/zero open or close, substitutes a missing high
or low with the close, and coerces a null volume to 0. -/
def yahooRowsAux (symbol : String) (q : YahooQuote) :
    Nat → List (Option Int) → List PriceRow
  | _, [] => []
  | i, t :: ts =>
    let rest := yahooRowsAux symbol q (i + 1) ts
    let ms := t.getD 0 * 1000
    if tsFinite ms then
      match numOrNull ((q.open_.get? i).join), numOrNull ((q.close.get? i).join) with
      | some o, some c =>
        let h := numOrNull ((q.high.get? i).join)
        let l := numOrNull ((q.low.get? i).join)
        let vol := ((q.volume.get? i).join).getD 0
        let change := c - o
        { date := msToDay ms
          symbol := toUpperStr symbol
          name := toUpperStr symbol
          sector := "Unknown"
          open_ := o
          high := h.getD c
          low := l.getD c
          close := c
          volume := vol
          adjustedClose := c
          priceChange := change
          priceChangePercent := if o = 0 then 0 else change / o * 100 } :: rest
      | _, _ => rest
    else rest

/-- The Yahoo Finance fallback adapter. A bad payload or a transport error
both return none (the source catches and returns null); a usable chart
yields the reconstructed rows clamped to the trailing historyDays. -/
def fetchFromYahoo (resp : Option YahooChart) (days : Nat) (symbol : String) :
    Option (List PriceRow) :=
  match resp with
  | none => none
  | some chart =>
      some (sliceLast days (yahooRowsAux symbol chart.quote 0 chart.timestamp))

/-- The per-symbol provider environment: the Alpha Vantage response for each
attempt number, the retry budget, and the Yahoo chart response. -/
structure ProviderEnv where
  maxAttempts : Nat
  alphaResponses : Nat → AlphaResponse
  yahooResp : Option YahooChart

/-- fetchCompanyData: tries Alpha Vantage first (with retries); when the
call throws, or returns a payload without the Time Series (Daily) key, the
Yahoo fallback is used; its own failures surface as none. -/
def fetchCompanyData (env : ProviderEnv) (days : Nat) (c : SymbolSpec) :
    Option (List PriceRow) :=
  match (callAlpha env.maxAttempts env.alphaResponses 1).result with
  | .error _ => fetchFromYahoo env.yahooResp days c.symbol
  | .ok ts =>
    match ts with
    | some series => some (alphaRows days c series)
    | none => fetchFromYahoo env.yahooResp days c.symbol

/-- The sidecar metadata record last_update.json. -/
structure UpdateInfo where
  lastUpdate : Int
  totalCompanies : Nat
  dataPoints : Nat
deriving DecidableEq

/-- The on-disk state of the agent: data directory, CSV table, sidecar. -/
structure StoreState where
  dirExists : Bool
  csv : Option (List PriceRow)
  meta : Option UpdateInfo
deriving DecidableEq

/-- The agent configuration: the symbol universe and the trailing-day
window. -/
structure AgentConfig where
  companies : List SymbolSpec
  days : Nat

/-- The effect environment of one bulk run: API key presence, per-symbol
provider responses, per-symbol CSV write failures, metadata write failure,
and the current clock in milliseconds. -/
structure RunEnv where
  apiKey : Option String
  providers : SymbolSpec → ProviderEnv
  saveFails : SymbolSpec → Bool
  metaWriteFails : Bool
  now : Int

/-- The counters fetchAllStockData returns. -/
structure RunResult where
  successCount : Nat
  errorCount : Nat
  totalRows : Nat
deriving DecidableEq

/-- The append-mode saveToCsv: rows are written after the existing content;
the table is assumed initialized, so the header line is already present. -/
def saveToCsv (csv : Option (List PriceRow)) (rows : List PriceRow) :
    Option (List PriceRow) :=
  some (csv.getD [] ++ rows)

/-- Non-empty line count of the CSV minus the header, as getDataPointCount
computes it; an absent file reads as 0 through the catch. -/
def dataPointCount (csv : Option (List PriceRow)) : Nat :=
  match csv with
  | none => 0
  | some rows => max 0 (1 + rows.length - 1)

/-- One iteration of the symbol loop of fetchAllStockData: a non-null,
non-empty fetch result is appended immediately and counted as a success
unless the CSV write throws; a null result, an empty result, or a throw is
counted as an error and the loop continues. -/
def ingestStep (env : RunEnv) (days : Nat) (st : StoreState × RunResult)
    (c : SymbolSpec) : StoreState × RunResult :=
  let store := st.1
  let res := st.2
  match fetchCompanyData (env.providers c) days c with
  | some rows =>
    if rows.length ≠ 0 then
      if env.saveFails c then
        (store, { res with errorCount := res.errorCount + 1 })
      else
        ({ store with csv := saveToCsv store.csv rows },
         { res with successCount := res.successCount + 1,
                    totalRows := res.totalRows + rows.length })
    else (store, { res with errorCount := res.errorCount + 1 })
  | none => (store, { res with errorCount := res.errorCount + 1 })

/-- updateLastUpdateTime: overwrites the sidecar with the current time, the
configured company count and the re-read CSV row count; a write failure is
caught and leaves the previous sidecar in place. -/
def updateLastUpdateTime (cfg : AgentConfig) (env : RunEnv)
    (store : StoreState) : StoreState :=
  if env.metaWriteFails then store
  else { store with meta := some { lastUpdate := env.now
                                   totalCompanies := cfg.companies.length
                                   dataPoints := dataPointCount store.csv } }

/-- fetchAllStockData: fails fast without the API key, then folds the
symbol loop over the configured companies and unconditionally rewrites the
sidecar metadata after the loop. The inter-symbol sleep has no observable
state and is not modelled. -/
def fetchAllStockData (cfg : AgentConfig) (env : RunEnv) (store : StoreState) :
    Except String (StoreState × RunResult) :=
  if env.apiKey.isNone then .error "Alpha Vantage API key not configured"
  else
    let p := cfg.companies.foldl (ingestStep env cfg.days) (store, ⟨0, 0, 0⟩)
    .ok (updateLastUpdateTime cfg env p.1, p.2)

/-- needsUpdate: true without a sidecar record, else true exactly when the
elapsed hours since lastUpdate exceed 24. -/
def needsUpdate (meta : Option UpdateInfo) (now : Int) : Bool :=
  match meta with
  | none => true
  | some m =>
      decide ((24 : ℚ) < ((now : ℚ) - (m.lastUpdate : ℚ)) / (1000 * 60 * 60))

/-- The initialize method: creates the data directory and, only when the
CSV file is absent, writes the header-only table. -/
def initializeAgent (st : StoreState) : StoreState :=
  { st with dirExists := true
            csv := match st.csv with
                   | none => some []
                   | some rows => some rows }

/-- Descending-date comparator of getStockData and filterByPeriod. -/
def dateDesc (a b : PriceRow) : Prop := b.date ≤ a.date

instance : DecidableRel dateDesc := fun a b => Int.decLe b.date a.date

instance : IsTotal PriceRow dateDesc := ⟨fun a b => Int.le_total b.date a.date⟩

instance : IsTrans PriceRow dateDesc :=
  ⟨fun _ _ _ h1 h2 => le_trans h2 h1⟩

/-- Sort rows by date, newest first. -/
def sortDesc (l : List PriceRow) : List PriceRow := l.insertionSort dateDesc

/-- The period label to trailing-day-count switch of filterByPeriod; an
unrecognized label keeps all rows. -/
def daysToKeep (period : String) (dataLength : Nat) : Nat :=
  if period = "1d" then 1
  else if period = "5d" then 5
  else if period = "1mo" then 30
  else if period = "3mo" then 90
  else if period = "6mo" then 180
  else if period = "1y" then 365
  else dataLength

/-- The mapped trailing-day count of a period label, none for labels that
keep all rows. -/
def periodDays (period : String) : Option Nat :=
  if period = "1d" then some 1
  else if period = "5d" then some 5
  else if period = "1mo" then some 30
  else if period = "3mo" then some 90
  else if period = "6mo" then some 180
  else if period = "1y" then some 365
  else none

/-- filterByPeriod: sorts newest first and keeps the first daysToKeep rows
(a row-count truncation, not a calendar filter). -/
def filterByPeriod (data : List PriceRow) (period : String) : List PriceRow :=
  if data.isEmpty then data
  else (sortDesc data).take (daysToKeep period data.length)

/-- Projection of a store row into a priceHistory entry. -/
def toHist (r : PriceRow) : HistRow :=
  { date := r.date, open_ := r.open_, high := r.high, low := r.low
    close := r.close, volume := r.volume, adjustedClose := r.adjustedClose }

/-- getStockData: loads the table, filters to the uppercased symbol, sorts
newest first, truncates by period, and reshapes into the summary; absent
file, empty table and unknown symbol each throw. -/
def getStockData (csv : Option (List PriceRow)) (symbol : String)
    (period : String) : Except String StockSummary :=
  match csv with
  | none => .error "Stock data file not found. Run bulk fetch first."
  | some data =>
    if data.isEmpty then
      .error "Stock data file is empty or only contains headers"
    else
      let companyData := data.filter (fun r => r.symbol == toUpperStr symbol)
      match sortDesc companyData with
      | [] => .error ("No data found for symbol: " ++ symbol)
      | a :: rest =>
        .ok { symbol := toUpperStr symbol
              name := a.name
              sector := a.sector
              currentPrice := a.close
              previousClose := (rest.headD a).close
              priceHistory := (filterByPeriod (a :: rest) period).map toHist }

/-- The rows of the store that getStockData keeps for a symbol. -/
def companyRows (csv : Option (List PriceRow)) (symbol : String) :
    List PriceRow :=
  (csv.getD []).filter (fun r => r.symbol == toUpperStr symbol)

/-! Concrete sample data used by the evaluation theorems below. -/

/-- Sample company from the default list. -/
def aaplSpec : SymbolSpec := ⟨"AAPL", "Apple Inc.", "Technology"⟩

/-- Sample Alpha Vantage day: open 2, high 4, low 1, close 3, NaN adjusted
close, volume 100. -/
def wQuote : DailyQuote := ⟨2, 4, 1, 3, none, 100⟩

/-- A provider that signals rate limiting on every attempt. -/
def rlResponses : Nat → AlphaResponse :=
  fun _ => .payload (some "rate limited") none none

/-- A provider whose payload has a time-series key with no days, and no
Yahoo data. -/
def emptyTsEnv : ProviderEnv := ⟨5, fun _ => .payload none none (some []), none⟩

/-- A provider with a one-day time series and no Yahoo data. -/
def oneDayEnv : ProviderEnv :=
  ⟨5, fun _ => .payload none none (some [(1, wQuote)]), none⟩

/-- A provider whose payload lacks the time-series key, with no Yahoo
data: both paths fail. -/
def failEnvP : ProviderEnv := ⟨1, fun _ => .payload none none none, none⟩

/-- Run environment around emptyTsEnv. -/
def cexRunEnv : RunEnv := ⟨some "key", fun _ => emptyTsEnv, fun _ => false, false, 0⟩

/-- Run environment around oneDayEnv. -/
def wRunEnv : RunEnv := ⟨some "key", fun _ => oneDayEnv, fun _ => false, false, 5⟩

/-- Run environment around failEnvP. -/
def wRunEnvFail : RunEnv := ⟨some "key", fun _ => failEnvP, fun _ => false, false, 777⟩

/-- Run environment around failEnvP whose metadata write fails. -/
def wRunEnvMetaFail : RunEnv := ⟨some "key", fun _ => failEnvP, fun _ => false, true, 777⟩

/-- An initialized, empty store. -/
def cexStore : StoreState := ⟨true, some [], none⟩

/-- Sample row, date 10. -/
def rowD1 : PriceRow :=
  ⟨10, "AAPL", "Apple Inc.", "Technology", 1, 2, 1, 2, 5, 2, 1, 100⟩

/-- Sample row sharing the date of rowD1 (a duplicate-date append). -/
def rowD2 : PriceRow :=
  ⟨10, "AAPL", "Apple Inc.", "Technology", 1, 2, 1, 3, 5, 3, 2, 200⟩

/-- An initialized store holding one row. -/
def preStore : StoreState := ⟨true, some [rowD1], none⟩

/-- A store holding two rows with the same date for the same symbol. -/
def dupStore : Option (List PriceRow) := some [rowD1, rowD2]

/-- The summary getStockData returns on dupStore. -/
def dupSummary : StockSummary :=
  ⟨"AAPL", "Apple Inc.", "Technology", 2, 3, [toHist rowD1, toHist rowD2]⟩

/-- Sample row, date 20. -/
def rowE1 : PriceRow :=
  ⟨20, "AAPL", "Apple Inc.", "Technology", 2, 3, 1, 3, 10, 3, 1, 50⟩

/-- Sample row, date 10, distinct date from rowE1. -/
def rowE2 : PriceRow :=
  ⟨10, "AAPL", "Apple Inc.", "Technology", 1, 2, 1, 2, 10, 2, 1, 100⟩

/-- A store holding two distinct-date rows, unsorted. -/
def wStore2 : Option (List PriceRow) := some [rowE2, rowE1]

/-- The summary getStockData returns on wStore2. -/
def wSummary2 : StockSummary :=
  ⟨"AAPL", "Apple Inc.", "Technology", 3, 2, [toHist rowE1, toHist rowE2]⟩

/-- Sample Yahoo chart: index 0 is kept (with a null high and a null
volume), index 1 is skipped because its open parses to zero. -/
def wChart : YahooChart :=
  { timestamp := [some 86400, none]
    quote := { open_ := [some 2, some 0], high := [none, some 5], low := [some 1, none]
               close := [some 4, some 6], volume := [none, some 7] } }

/-- The single row the fallback adapter emits on wChart; the arithmetic
fields are stated as the unevaluated expressions the adapter builds. -/
def wYahooRow : PriceRow :=
  { date := 1, symbol := "MSFT", name := "MSFT", sector := "Unknown"
    open_ := 2, high := 4, low := 1, close := 4, volume := 0, adjustedClose := 4
    priceChange := (4 : ℚ) - 2
    priceChangePercent := ((4 : ℚ) - 2) / 2 * 100 }

end StockAgent

namespace StockAgent

/-! Helper lemmas. -/

/-- Splitting the bottom element off a Nat-interval sum. -/
lemma sum_Icc_bot (f : Nat → Nat) (a r : Nat) :
    (Finset.Icc a (a + r)).sum f = f a + (Finset.Icc (a + 1) (a + r)).sum f := by
  have hins : Finset.Icc a (a + r) = insert a (Finset.Icc (a + 1) (a + r)) := by
    ext x
    simp only [Finset.mem_Icc, Finset.mem_insert]
    omega
  rw [hins, Finset.sum_insert]
  simp only [Finset.mem_Icc]
  omega

/-- The backoff sum over an empty or degenerate interval vanishes. -/
lemma sum_Icc_backoff_zero (a : Nat) :
    (Finset.Icc a (a - 1)).sum (fun i => min (60 * i) 180) = 0 := by
  cases a with
  | zero =>
    simp
  | succ n =>
    rw [Finset.Icc_eq_empty (by omega)]
    simp

/-- Closed form of callAlphaGo when every response carries the marker. -/
lemma callAlphaGo_exhausted (responses : Nat → AlphaResponse)
    (h : ∀ i, markerOf (responses i) = true) :
    ∀ (remaining attempt : Nat),
      callAlphaGo responses attempt remaining =
        ⟨.error (markerMessage (responses (attempt + remaining))),
         remaining + 1,
         (Finset.Icc attempt (attempt + remaining - 1)).sum
           (fun i => min (60 * i) 180)⟩ := by
  intro remaining
  induction remaining with
  | zero =>
    intro attempt
    have hm := h attempt
    simp only [Nat.add_zero]
    cases hr : responses attempt with
    | transportError msg =>
      rw [hr] at hm
      simp [markerOf] at hm
    | payload note errorMessage ts =>
      rw [hr] at hm
      simp only [markerOf] at hm
      rw [callAlphaGo, hr]
      dsimp only
      rw [if_pos hm, sum_Icc_backoff_zero]
      simp only [markerMessage]
  | succ r ih =>
    intro attempt
    have hm := h attempt
    cases hr : responses attempt with
    | transportError msg =>
      rw [hr] at hm
      simp [markerOf] at hm
    | payload note errorMessage ts =>
      rw [hr] at hm
      simp only [markerOf] at hm
      rw [callAlphaGo, hr]
      dsimp only
      rw [if_pos hm, ih (attempt + 1)]
      have e1 : attempt + 1 + r = attempt + (r + 1) := by omega
      rw [e1]
      have e3 : attempt + (r + 1) - 1 = attempt + r := by omega
      rw [e3]
      rw [sum_Icc_bot (fun i => min (60 * i) 180) attempt r]
      exact congrArg (CallResult.mk _ _) (Nat.add_comm _ _)

/-! C2 -/

/-- C2: when every provider response carries a rate-limit or error marker,
callAlpha starting at attempt 1 performs exactly maxAttempts HTTP attempts
(maxAttempts defaults to 5, from STOCK_MAX_RETRIES), then throws the note
or error message of the final response, and the total seconds slept
between attempts is the sum over i = 1..maxAttempts-1 of min (60*i) 180. -/
theorem callAlpha_rate_limited_exhausts
    (maxAttempts : Nat) (responses : Nat → AlphaResponse)
    (h1 : 1 ≤ maxAttempts) (h2 : ∀ i, markerOf (responses i) = true) :
    (callAlpha maxAttempts responses 1).attempts = maxAttempts ∧
    (callAlpha maxAttempts responses 1).result =
      .error (markerMessage (responses maxAttempts)) ∧
    (callAlpha maxAttempts responses 1).sleptSec =
      (Finset.Icc 1 (maxAttempts - 1)).sum (fun i => min (60 * i) 180) := by
  unfold callAlpha
  rw [callAlphaGo_exhausted responses h2 (maxAttempts - 1) 1]
  have e1 : 1 + (maxAttempts - 1) = maxAttempts := by omega
  rw [e1]
  exact ⟨by show maxAttempts - 1 + 1 = maxAttempts; omega, rfl, rfl⟩

/-- Witness for C2 at the default budget of 5 attempts: the slept seconds
are 60 + 120 + 180 + 180 = 540. -/
theorem callAlpha_rate_limited_exhausts_witness :
    (callAlpha 5 rlResponses 1).attempts = 5 ∧
    (callAlpha 5 rlResponses 1).result =
      .error (markerMessage (rlResponses 5)) ∧
    (callAlpha 5 rlResponses 1).sleptSec =
      (Finset.Icc 1 4).sum (fun i => min (60 * i) 180) ∧
    (Finset.Icc 1 4).sum (fun i => min (60 * i) 180) = 540 := by
  have h := callAlpha_rate_limited_exhausts 5 rlResponses (by decide)
    (fun i => rfl)
  exact ⟨h.1, h.2.1, h.2.2, by decide⟩

/-! C8 -/

/-- C8: starting from a state with no table file, initializing twice gives
exactly the state of initializing once: the data directory plus the
header-only table, with nothing truncated or duplicated. -/
theorem initialize_idempotent_from_empty (d : Bool) (m : Option UpdateInfo) :
    initializeAgent (initializeAgent ⟨d, none, m⟩) = initializeAgent ⟨d, none, m⟩ ∧
    initializeAgent ⟨d, none, m⟩ = ⟨true, some [], m⟩ :=
  ⟨rfl, rfl⟩


/-! Helpers for the adapter row properties. -/

/-- The coercion never returns a zero value. -/
lemma numOrNull_ne_zero {x : Option ℚ} {v : ℚ} (h : numOrNull x = some v) :
    v ≠ 0 := by
  cases x with
  | none => simp [numOrNull] at h
  | some w =>
    simp only [numOrNull] at h
    split at h
    · exact absurd h (by simp)
    · next hw => cases h; exact hw

/-- The coercion maps exactly null and zero to null. -/
lemma numOrNull_eq_none (x : Option ℚ) :
    numOrNull x = none ↔ x = none ∨ x = some 0 := by
  cases x with
  | none => simp [numOrNull]
  | some w =>
    simp only [numOrNull]
    constructor
    · intro h
      split at h
      · next hw => right; rw [hw]
      · exact absurd h (by simp)
    · intro h
      rcases h with h | h
      · exact absurd h (by simp)
      · cases h; simp

/-- Every row the Yahoo index loop emits has a nonzero open and close, the
unguarded percent formula, and high and low fields obtained from some
index with the missing values replaced by the close. -/
lemma yahooRowsAux_mem (symbol : String) (q : YahooQuote) :
    ∀ (ts : List (Option Int)) (i : Nat) (row : PriceRow),
      row ∈ yahooRowsAux symbol q i ts →
      row.open_ ≠ 0 ∧ row.close ≠ 0 ∧
      row.priceChange = row.close - row.open_ ∧
      row.priceChangePercent = (row.close - row.open_) / row.open_ * 100 ∧
      ∃ j, row.high = (numOrNull ((q.high.get? j).join)).getD row.close ∧
           row.low = (numOrNull ((q.low.get? j).join)).getD row.close := by
  intro ts
  induction ts with
  | nil =>
    intro i row hm
    simp [yahooRowsAux] at hm
  | cons t rest ih =>
    intro i row hm
    rw [yahooRowsAux] at hm
    dsimp only at hm
    by_cases hts : tsFinite (t.getD 0 * 1000)
    · rw [if_pos hts] at hm
      cases ho : numOrNull ((q.open_.get? i).join) with
      | none =>
        rw [ho] at hm
        exact ih (i + 1) row hm
      | some o =>
        cases hc : numOrNull ((q.close.get? i).join) with
        | none =>
          rw [ho, hc] at hm
          exact ih (i + 1) row hm
        | some c =>
          rw [ho, hc] at hm
          dsimp only at hm
          rcases List.mem_cons.mp hm with hrow | hrow
          · subst hrow
            have hone : o ≠ 0 := numOrNull_ne_zero ho
            have hcne : c ≠ 0 := numOrNull_ne_zero hc
            refine ⟨hone, hcne, rfl, ?_, ⟨i, rfl, rfl⟩⟩
            dsimp only
            rw [if_neg hone]
          · exact ih (i + 1) row hrow
    · rw [if_neg hts] at hm
      exact ih (i + 1) row hm

/-- Membership in the trailing slice implies membership in the list. -/
lemma sliceLast_subset {α : Type} (n : Nat) (l : List α) :
    sliceLast n l ⊆ l := by
  unfold sliceLast
  split
  · exact fun a h => h
  · exact fun a h => List.mem_of_mem_drop h

/-- Every row of the primary path is the image of some looked-up day. -/
lemma alphaRows_mem (days : Nat) (c : SymbolSpec) (ts : List (Int × DailyQuote))
    (row : PriceRow) (h : row ∈ alphaRows days c ts) :
    ∃ d q, ts.lookup d = some q ∧ row = mkAlphaRow c d q := by
  unfold alphaRows at h
  rcases List.mem_filterMap.mp h with ⟨d, _, hmap⟩
  rcases Option.map_eq_some'.mp hmap with ⟨q, hq, hrow⟩
  exact ⟨d, q, hq, hrow.symm⟩


/-! C7 -/

/-- C7: every PriceRow produced by either adapter path (the Alpha Vantage
primary path or the Yahoo fallback) has priceChangePercent equal to
(close - open) / open * 100 when open is nonzero and exactly 0 when open
is zero, by the embedded zero-guard rather than a division error. -/
theorem priceChangePercent_zero_guarded
    (days : Nat) (c : SymbolSpec) (ts : List (Int × DailyQuote))
    (resp : Option YahooChart) (sym : String) :
    (∀ row ∈ alphaRows days c ts,
       row.priceChangePercent =
         if row.open_ = 0 then 0
         else (row.close - row.open_) / row.open_ * 100) ∧
    (∀ rows, fetchFromYahoo resp days sym = some rows →
       ∀ row ∈ rows,
         row.priceChangePercent =
           if row.open_ = 0 then 0
           else (row.close - row.open_) / row.open_ * 100) := by
  constructor
  · intro row hrow
    rcases alphaRows_mem days c ts row hrow with ⟨d, q, _, hrow⟩
    subst hrow
    rfl
  · intro rows hrows row hrow
    cases resp with
    | none => simp [fetchFromYahoo] at hrows
    | some chart =>
      simp only [fetchFromYahoo, Option.some.injEq] at hrows
      subst hrows
      have hmem := sliceLast_subset days
        (yahooRowsAux sym chart.quote 0 chart.timestamp) hrow
      obtain ⟨h1, _, _, h4, _⟩ :=
        yahooRowsAux_mem sym chart.quote chart.timestamp 0 row hmem
      rw [if_neg h1]
      exact h4

/-- Witness for C7: a concrete primary row (open 2, close 3) and the
concrete fallback row of wChart (open 2, close 4). -/
theorem priceChangePercent_zero_guarded_witness :
    ((mkAlphaRow aaplSpec 1 wQuote).priceChangePercent =
      if (mkAlphaRow aaplSpec 1 wQuote).open_ = 0 then 0
      else ((mkAlphaRow aaplSpec 1 wQuote).close -
              (mkAlphaRow aaplSpec 1 wQuote).open_) /
             (mkAlphaRow aaplSpec 1 wQuote).open_ * 100) ∧
    (wYahooRow.priceChangePercent =
      if wYahooRow.open_ = 0 then 0
      else (wYahooRow.close - wYahooRow.open_) / wYahooRow.open_ * 100) := by
  constructor
  · exact (priceChangePercent_zero_guarded 30 aaplSpec [(1, wQuote)] none "X").1
      (mkAlphaRow aaplSpec 1 wQuote)
      (show mkAlphaRow aaplSpec 1 wQuote ∈ [mkAlphaRow aaplSpec 1 wQuote] from
        List.mem_singleton_self _)
  · exact (priceChangePercent_zero_guarded 30 aaplSpec [] (some wChart) "MSFT").2
      [wYahooRow] rfl wYahooRow (List.mem_singleton_self _)

/-! C9 -/

/-- C9: every row the Yahoo fallback emits has a nonzero open and close
(an index whose parsed open or close is null, NaN, or zero is coerced to
null by the parse-or-null coercion and skipped), a missing high or low is
substituted with the close of the row, and consequently the percent is
always the unguarded formula: the zero branch is unreachable on this
path. -/
theorem fetchFromYahoo_rows_nonzero (chart : YahooChart) (days : Nat)
    (sym : String) (rows : List PriceRow) (row : PriceRow)
    (hf : fetchFromYahoo (some chart) days sym = some rows) (hm : row ∈ rows) :
    row.open_ ≠ 0 ∧ row.close ≠ 0 ∧
    row.priceChangePercent = (row.close - row.open_) / row.open_ * 100 ∧
    (∃ j, row.high = (numOrNull ((chart.quote.high.get? j).join)).getD row.close ∧
          row.low = (numOrNull ((chart.quote.low.get? j).join)).getD row.close) ∧
    (∀ x : Option ℚ, numOrNull x = none ↔ x = none ∨ x = some 0) := by
  simp only [fetchFromYahoo, Option.some.injEq] at hf
  subst hf
  have hmem := sliceLast_subset days
    (yahooRowsAux sym chart.quote 0 chart.timestamp) hm
  obtain ⟨h1, h2, _, h4, h5⟩ :=
    yahooRowsAux_mem sym chart.quote chart.timestamp 0 row hmem
  exact ⟨h1, h2, h4, h5, numOrNull_eq_none⟩

/-- Witness for C9 on the concrete chart wChart: its emitted row has open
2 and close 4, a null high replaced by the close, and the zero-open index
of the chart is skipped. -/
theorem fetchFromYahoo_rows_nonzero_witness :
    wYahooRow.open_ ≠ 0 ∧ wYahooRow.close ≠ 0 ∧
    wYahooRow.priceChangePercent =
      (wYahooRow.close - wYahooRow.open_) / wYahooRow.open_ * 100 ∧
    (∃ j, wYahooRow.high =
            (numOrNull ((wChart.quote.high.get? j).join)).getD wYahooRow.close ∧
          wYahooRow.low =
            (numOrNull ((wChart.quote.low.get? j).join)).getD wYahooRow.close) ∧
    (∀ x : Option ℚ, numOrNull x = none ↔ x = none ∨ x = some 0) :=
  fetchFromYahoo_rows_nonzero wChart 30 "MSFT" [wYahooRow] wYahooRow rfl
    (List.mem_singleton_self _)


/-! C1 -/

/-- The switch of filterByPeriod agrees with the label map. -/
lemma daysToKeep_eq (period : String) (len : Nat) :
    daysToKeep period len = (periodDays period).getD len := by
  unfold daysToKeep periodDays
  split_ifs <;> rfl

/-- C1 (amended): on every stored dataset and every period label, a
successful getStockData returns a priceHistory of at most the mapped
trailing-day count of rows (all of the symbol rows for an unmapped
label), equal to the first rows of the date-sorted symbol rows; the rows
are in descending date order, non-strictly: consecutive rows can share a
date because the store is appended blindly. -/
theorem getStockData_window (csv : Option (List PriceRow)) (sym period : String)
    (s : StockSummary) (h : getStockData csv sym period = .ok s) :
    (∀ n, periodDays period = some n → s.priceHistory.length ≤ n) ∧
    (periodDays period = none →
       s.priceHistory.length = (companyRows csv sym).length) ∧
    s.priceHistory =
      ((sortDesc (companyRows csv sym)).take
        (daysToKeep period (companyRows csv sym).length)).map toHist ∧
    List.Pairwise (fun a b : HistRow => b.date ≤ a.date) s.priceHistory := by
  cases csv with
  | none => simp [getStockData] at h
  | some data =>
    simp only [getStockData] at h
    by_cases hde : data.isEmpty
    · rw [if_pos hde] at h
      exact absurd h (by simp)
    · rw [if_neg hde] at h
      cases hs : sortDesc (data.filter (fun r => r.symbol == toUpperStr sym)) with
      | nil =>
        rw [hs] at h
        exact absurd h (by simp)
      | cons a rest =>
        rw [hs] at h
        injection h with h2
        subst h2
        have hcr : companyRows (some data) sym =
            data.filter (fun r => r.symbol == toUpperStr sym) := rfl
        have hsort : List.Sorted dateDesc (a :: rest) := by
          rw [← hs]
          exact List.sorted_insertionSort dateDesc _
        have hlen : (a :: rest).length =
            (data.filter (fun r => r.symbol == toUpperStr sym)).length := by
          rw [← hs]
          exact List.length_insertionSort dateDesc _
        have hfp : filterByPeriod (a :: rest) period =
            (a :: rest).take
              (daysToKeep period
                (data.filter (fun r => r.symbol == toUpperStr sym)).length) := by
          unfold filterByPeriod
          rw [if_neg (by simp)]
          rw [show sortDesc (a :: rest) = a :: rest from hsort.insertionSort_eq]
          rw [hlen]
        have hph : (filterByPeriod (a :: rest) period).map toHist =
            ((a :: rest).take
              (daysToKeep period
                (data.filter (fun r => r.symbol == toUpperStr sym)).length)).map
              toHist := by rw [hfp]
        refine ⟨?_, ?_, ?_, ?_⟩
        · intro n hn
          show ((filterByPeriod (a :: rest) period).map toHist).length ≤ n
          rw [hph, List.length_map, List.length_take, daysToKeep_eq, hn,
            Option.getD_some]
          exact min_le_left _ _
        · intro hnone
          show ((filterByPeriod (a :: rest) period).map toHist).length =
            (companyRows (some data) sym).length
          rw [hph, List.length_map, List.length_take, daysToKeep_eq, hnone,
            Option.getD_none, hcr, hlen, min_self]
        · show (filterByPeriod (a :: rest) period).map toHist =
            ((sortDesc (companyRows (some data) sym)).take
              (daysToKeep period (companyRows (some data) sym).length)).map toHist
          rw [hph, hcr, hs]
        · show List.Pairwise (fun a b : HistRow => b.date ≤ a.date)
            ((filterByPeriod (a :: rest) period).map toHist)
          rw [hph, List.pairwise_map]
          exact List.Pairwise.sublist (List.take_sublist _ _) hsort

/-- Witness for C1 on a two-row store with distinct dates and the 5d
label. -/
theorem getStockData_window_witness :
    getStockData wStore2 "AAPL" "5d" = Except.ok wSummary2 ∧
    wSummary2.priceHistory.length ≤ 5 ∧
    List.Pairwise (fun a b : HistRow => b.date ≤ a.date)
      wSummary2.priceHistory := by
  have h := getStockData_window wStore2 "AAPL" "5d" wSummary2 rfl
  exact ⟨rfl, h.1 5 rfl, h.2.2.2⟩

/-- Counterexample to C1 as stated: on a store holding two rows with the
same symbol and the same date (reachable, because appends are never
deduplicated), the returned priceHistory is not strictly descending by
date. -/
theorem getStockData_strict_descending_fails :
    getStockData dupStore "AAPL" "5d" = Except.ok dupSummary ∧
    ¬ List.Pairwise (fun a b : HistRow => b.date < a.date)
        dupSummary.priceHistory := by
  refine ⟨rfl, ?_⟩
  intro hp
  rw [show dupSummary.priceHistory = [toHist rowD1, toHist rowD2] from rfl] at hp
  have h10 := (List.pairwise_cons.mp hp).1 (toHist rowD2) (List.mem_singleton_self _)
  simp [toHist, rowD1, rowD2] at h10


/-! Helpers for the bulk-run loop. -/

/-- One loop iteration never touches the sidecar metadata. -/
lemma ingestStep_meta (env : RunEnv) (days : Nat) (p : StoreState × RunResult)
    (c : SymbolSpec) : ((ingestStep env days p c).1).meta = p.1.meta := by
  unfold ingestStep
  cases fetchCompanyData (env.providers c) days c with
  | none => rfl
  | some rows =>
    dsimp only
    by_cases hl : rows.length ≠ 0
    · rw [if_pos hl]
      by_cases hsf : env.saveFails c
      · rw [if_pos hsf]
      · rw [if_neg hsf]
    · rw [if_neg hl]

/-- One loop iteration increments exactly one of the two counters. -/
lemma ingestStep_counts (env : RunEnv) (days : Nat) (p : StoreState × RunResult)
    (c : SymbolSpec) :
    (ingestStep env days p c).2.successCount + (ingestStep env days p c).2.errorCount
      = p.2.successCount + p.2.errorCount + 1 := by
  unfold ingestStep
  cases fetchCompanyData (env.providers c) days c with
  | none =>
    show p.2.successCount + (p.2.errorCount + 1) = _
    omega
  | some rows =>
    dsimp only
    by_cases hl : rows.length ≠ 0
    · rw [if_pos hl]
      by_cases hsf : env.saveFails c
      · rw [if_pos hsf]
        show p.2.successCount + (p.2.errorCount + 1) = _
        omega
      · rw [if_neg hsf]
        show (p.2.successCount + 1) + p.2.errorCount = _
        omega
    · rw [if_neg hl]
      show p.2.successCount + (p.2.errorCount + 1) = _
      omega

/-- The symbol loop never touches the sidecar metadata. -/
lemma foldl_meta_eq (env : RunEnv) (days : Nat) :
    ∀ (l : List SymbolSpec) (p : StoreState × RunResult),
      ((l.foldl (ingestStep env days) p).1).meta = p.1.meta := by
  intro l
  induction l with
  | nil => intro p; rfl
  | cons c l ih =>
    intro p
    rw [List.foldl_cons, ih (ingestStep env days p c)]
    exact ingestStep_meta env days p c

/-- Every configured symbol is tallied exactly once. -/
lemma foldl_counts (env : RunEnv) (days : Nat) :
    ∀ (l : List SymbolSpec) (p : StoreState × RunResult),
      (l.foldl (ingestStep env days) p).2.successCount +
        (l.foldl (ingestStep env days) p).2.errorCount =
      p.2.successCount + p.2.errorCount + l.length := by
  intro l
  induction l with
  | nil => intro p; simp
  | cons c l ih =>
    intro p
    rw [List.foldl_cons]
    have h1 := ih (ingestStep env days p c)
    have h2 := ingestStep_counts env days p c
    simp only [List.length_cons]
    omega

/-- A present API key makes the fail-fast guard pass. -/
lemma apiKey_isNone_false {env : RunEnv} (hk : env.apiKey.isSome = true) :
    env.apiKey.isNone = false := by
  cases hk2 : env.apiKey with
  | none => rw [hk2] at hk; exact absurd hk (by simp)
  | some k => rfl

/-- After a run whose metadata write does not fail, the sidecar holds the
clock, the configured symbol count, and the re-read row count. -/
lemma run_meta_eq (cfg : AgentConfig) (env : RunEnv) (store st1 : StoreState)
    (res : RunResult) (hk : env.apiKey.isSome = true)
    (hm : env.metaWriteFails = false)
    (h : fetchAllStockData cfg env store = .ok (st1, res)) :
    st1.meta = some { lastUpdate := env.now
                      totalCompanies := cfg.companies.length
                      dataPoints := dataPointCount st1.csv } := by
  unfold fetchAllStockData at h
  rw [if_neg (by simp [apiKey_isNone_false hk])] at h
  dsimp only at h
  injection h with h2
  rw [Prod.mk.injEq] at h2
  obtain ⟨h3, _⟩ := h2
  subst h3
  unfold updateLastUpdateTime
  rw [if_neg (by simp [hm])]

/-! C3 -/

/-- C3: fetchCompanyData tries the primary provider first; when the
primary payload lacks the time-series key, or the primary call throws,
the Yahoo fallback path is returned (so its rows are the result when it
succeeds); when both fail the result is null, and in the bulk run that
symbol is tallied as an errorCount failure with no rows appended. -/
theorem fetchCompanyData_fallback (env : ProviderEnv) (days : Nat)
    (c : SymbolSpec) :
    ((callAlpha env.maxAttempts env.alphaResponses 1).result = .ok none →
       fetchCompanyData env days c = fetchFromYahoo env.yahooResp days c.symbol) ∧
    (∀ msg, (callAlpha env.maxAttempts env.alphaResponses 1).result = .error msg →
       fetchCompanyData env days c = fetchFromYahoo env.yahooResp days c.symbol) ∧
    ((∀ series, (callAlpha env.maxAttempts env.alphaResponses 1).result ≠
        .ok (some series)) →
       env.yahooResp = none → fetchCompanyData env days c = none) ∧
    (∀ (renv : RunEnv) (store : StoreState) (k : String),
       renv.apiKey = some k → renv.providers c = env →
       fetchCompanyData env days c = none →
       ∃ st1, fetchAllStockData ⟨[c], days⟩ renv store = .ok (st1, ⟨0, 1, 0⟩) ∧
              st1.csv = store.csv) := by
  refine ⟨?_, ?_, ?_, ?_⟩
  · intro h
    unfold fetchCompanyData
    rw [h]
  · intro msg hmsg
    unfold fetchCompanyData
    rw [hmsg]
  · intro hno hy
    unfold fetchCompanyData
    cases hr : (callAlpha env.maxAttempts env.alphaResponses 1).result with
    | error m => rw [hy]; rfl
    | ok ts =>
      cases ts with
      | none => rw [hy]; rfl
      | some series => exact absurd hr (hno series)
  · intro renv store k hk hp hf
    refine ⟨updateLastUpdateTime ⟨[c], days⟩ renv store, ?_, ?_⟩
    · unfold fetchAllStockData
      rw [if_neg (by simp [hk])]
      dsimp only
      rw [List.foldl_cons, List.foldl_nil]
      unfold ingestStep
      rw [hp, hf]
    · unfold updateLastUpdateTime
      split_ifs <;> rfl

/-- Witness for C3: a primary payload without the time-series key and no
Yahoo data yield null, and the one-symbol run tallies it as an error with
the store unchanged. -/
theorem fetchCompanyData_fallback_witness :
    fetchCompanyData failEnvP 30 aaplSpec = none ∧
    (∃ st1, fetchAllStockData ⟨[aaplSpec], 30⟩ wRunEnvFail preStore =
              .ok (st1, ⟨0, 1, 0⟩) ∧
            st1.csv = preStore.csv) := by
  have h := fetchCompanyData_fallback failEnvP 30 aaplSpec
  have hno : ∀ series,
      (callAlpha failEnvP.maxAttempts failEnvP.alphaResponses 1).result ≠
        Except.ok (some series) := by
    intro series hs
    rw [show (callAlpha failEnvP.maxAttempts failEnvP.alphaResponses 1).result =
      Except.ok none from rfl] at hs
    simp at hs
  have hf := h.2.2.1 hno rfl
  exact ⟨hf, h.2.2.2 wRunEnvFail preStore "key" rfl rfl hf⟩

/-! C4 -/

/-- C4 (amended): in the symbol loop, a non-null and non-empty adapter
result is appended to the store immediately within that iteration and
successCount is incremented, unless the CSV write throws; a null result,
an empty (zero-length, hence falsy) result, or a thrown write increments
errorCount and leaves the store unchanged; the loop never aborts: every
configured symbol is tallied into exactly one of the two counters. -/
theorem ingest_tally (renv : RunEnv) (days : Nat) (store : StoreState)
    (res : RunResult) (c : SymbolSpec) (cfg : AgentConfig) :
    (∀ rows, fetchCompanyData (renv.providers c) days c = some rows →
       rows ≠ [] → renv.saveFails c = false →
       ingestStep renv days (store, res) c =
         ({ store with csv := some (store.csv.getD [] ++ rows) },
          { res with successCount := res.successCount + 1,
                     totalRows := res.totalRows + rows.length })) ∧
    (∀ rows, fetchCompanyData (renv.providers c) days c = some rows →
       rows ≠ [] → renv.saveFails c = true →
       ingestStep renv days (store, res) c =
         (store, { res with errorCount := res.errorCount + 1 })) ∧
    (fetchCompanyData (renv.providers c) days c = some [] →
       ingestStep renv days (store, res) c =
         (store, { res with errorCount := res.errorCount + 1 })) ∧
    (fetchCompanyData (renv.providers c) days c = none →
       ingestStep renv days (store, res) c =
         (store, { res with errorCount := res.errorCount + 1 })) ∧
    (∀ st1 res1, fetchAllStockData cfg renv store = .ok (st1, res1) →
       res1.successCount + res1.errorCount = cfg.companies.length) := by
  refine ⟨?_, ?_, ?_, ?_, ?_⟩
  · intro rows hf hne hsf
    unfold ingestStep
    rw [hf]
    dsimp only
    rw [if_pos (fun h0 => hne (List.length_eq_zero.mp h0))]
    rw [if_neg (by simp [hsf])]
    rfl
  · intro rows hf hne hsf
    unfold ingestStep
    rw [hf]
    dsimp only
    rw [if_pos (fun h0 => hne (List.length_eq_zero.mp h0))]
    rw [if_pos hsf]
  · intro hf
    unfold ingestStep
    rw [hf]
    dsimp only
    rw [if_neg (by simp)]
  · intro hf
    unfold ingestStep
    rw [hf]
  · intro st1 res1 h
    unfold fetchAllStockData at h
    by_cases hk : renv.apiKey.isNone
    · rw [if_pos hk] at h
      exact absurd h (by simp)
    · rw [if_neg hk] at h
      dsimp only at h
      injection h with h2
      rw [Prod.mk.injEq] at h2
      obtain ⟨_, h4⟩ := h2
      rw [← h4]
      have h5 := foldl_counts renv cfg.days cfg.companies (store, ⟨0, 0, 0⟩)
      simpa using h5

/-- Witness for C4 on a one-day primary result: the row is appended and
the success counter incremented within the iteration. -/
theorem ingest_tally_witness :
    ingestStep wRunEnv 30 (cexStore, ⟨0, 0, 0⟩) aaplSpec =
      ({ cexStore with csv := some (cexStore.csv.getD [] ++ [mkAlphaRow aaplSpec 1 wQuote]) },
       { (⟨0, 0, 0⟩ : RunResult) with
           successCount := 0 + 1,
           totalRows := 0 + [mkAlphaRow aaplSpec 1 wQuote].length }) := by
  exact (ingest_tally wRunEnv 30 cexStore ⟨0, 0, 0⟩ aaplSpec ⟨[aaplSpec], 30⟩).1
    [mkAlphaRow aaplSpec 1 wQuote] rfl (by simp) rfl

/-- Counterexample to C4 as stated: an adapter result that is non-null but
empty (a present time-series key with no days) is tallied as an error, not
a success, and nothing is appended — the claim asserts that every non-null
result is appended with successCount incremented. -/
theorem ingest_tally_counterexample :
    fetchCompanyData emptyTsEnv 30 aaplSpec = some [] ∧
    fetchAllStockData ⟨[aaplSpec], 30⟩ cexRunEnv cexStore =
      .ok (⟨true, some [], some ⟨0, 1, 0⟩⟩, ⟨0, 1, 0⟩) :=
  ⟨rfl, rfl⟩

/-! C5 -/

/-- C5: after the symbol loop of any run with a configured API key and a
working metadata write — including a run in which every symbol failed and
nothing was appended — the sidecar is overwritten with the clock, the
configured company count, and a row count re-read from the CSV store
rather than taken from the in-run counters. -/
theorem run_rewrites_metadata (cfg : AgentConfig) (env : RunEnv)
    (store st1 : StoreState) (res : RunResult)
    (hk : env.apiKey.isSome = true) (hm : env.metaWriteFails = false)
    (h : fetchAllStockData cfg env store = .ok (st1, res)) :
    st1.meta = some { lastUpdate := env.now
                      totalCompanies := cfg.companies.length
                      dataPoints := dataPointCount st1.csv } :=
  run_meta_eq cfg env store st1 res hk hm h

/-- Witness for C5: a run in which the only symbol fails still rewrites
the sidecar; the recorded dataPoints is 1 (the pre-existing stored row,
re-read from the store) even though the run appended zero rows. -/
theorem run_rewrites_metadata_witness :
    fetchAllStockData ⟨[aaplSpec], 30⟩ wRunEnvFail preStore =
      .ok (⟨true, some [rowD1], some ⟨777, 1, 1⟩⟩, ⟨0, 1, 0⟩) ∧
    (⟨true, some [rowD1], some ⟨777, 1, 1⟩⟩ : StoreState).meta =
      some { lastUpdate := (777 : Int)
             totalCompanies := 1
             dataPoints := dataPointCount
               (⟨true, some [rowD1], some ⟨777, 1, 1⟩⟩ : StoreState).csv } :=
  ⟨rfl, run_rewrites_metadata ⟨[aaplSpec], 30⟩ wRunEnvFail preStore
    ⟨true, some [rowD1], some ⟨777, 1, 1⟩⟩ ⟨0, 1, 0⟩ rfl rfl rfl⟩

/-! C6 -/

/-- C6: needsUpdate is true with no metadata record; immediately after a
successful run (same clock instant) it is false; and on a present record
it is true exactly when more than 24 hours (86400000 ms) lie between the
recorded timestamp and the clock. -/
theorem needsUpdate_freshness (now : Int) (m : UpdateInfo)
    (cfg : AgentConfig) (env : RunEnv) (store st1 : StoreState)
    (res : RunResult) (hk : env.apiKey.isSome = true)
    (hm : env.metaWriteFails = false)
    (h : fetchAllStockData cfg env store = .ok (st1, res)) :
    needsUpdate none now = true ∧
    needsUpdate st1.meta env.now = false ∧
    (needsUpdate (some m) now = true ↔
      (86400000 : ℚ) < (now : ℚ) - (m.lastUpdate : ℚ)) := by
  refine ⟨rfl, ?_, ?_⟩
  · rw [run_meta_eq cfg env store st1 res hk hm h]
    simp only [needsUpdate]
    rw [decide_eq_false_iff_not]
    rw [sub_self]
    norm_num
  · simp only [needsUpdate, decide_eq_true_eq]
    rw [lt_div_iff₀ (by norm_num : (0 : ℚ) < 1000 * 60 * 60)]
    norm_num

/-- Witness for C6: fresh immediately after the concrete failing run at
clock 777, and the 24-hour comparison at a concrete record. -/
theorem needsUpdate_freshness_witness :
    needsUpdate none 5 = true ∧
    needsUpdate (⟨true, some [rowD1], some ⟨777, 1, 1⟩⟩ : StoreState).meta 777 = false ∧
    (needsUpdate (some ⟨0, 2, 3⟩) 99 = true ↔
      (86400000 : ℚ) < ((99 : Int) : ℚ) - (((⟨0, 2, 3⟩ : UpdateInfo).lastUpdate) : ℚ)) := by
  have h := needsUpdate_freshness 5 ⟨0, 2, 3⟩ ⟨[aaplSpec], 30⟩ wRunEnvFail preStore
    ⟨true, some [rowD1], some ⟨777, 1, 1⟩⟩ ⟨0, 1, 0⟩ rfl rfl rfl
  have h99 := needsUpdate_freshness 99 ⟨0, 2, 3⟩ ⟨[aaplSpec], 30⟩ wRunEnvFail preStore
    ⟨true, some [rowD1], some ⟨777, 1, 1⟩⟩ ⟨0, 1, 0⟩ rfl rfl rfl
  exact ⟨h.1, h.2.1, h99.2.2⟩

/-! C10 -/

/-- C10: a metadata write failure is swallowed: the run still completes,
returns the same counters as the run whose write works, and leaves the
previous sidecar record in place. -/
theorem metaWriteFailure_swallowed (cfg : AgentConfig) (env : RunEnv)
    (store : StoreState) (hk : env.apiKey.isSome = true)
    (hm : env.metaWriteFails = true) :
    (fetchAllStockData cfg env store).isOk = true ∧
    ∀ st1 res, fetchAllStockData cfg env store = .ok (st1, res) →
      st1.meta = store.meta ∧
      fetchAllStockData cfg { env with metaWriteFails := false } store =
        .ok ({ st1 with meta := some { lastUpdate := env.now
                                       totalCompanies := cfg.companies.length
                                       dataPoints := dataPointCount st1.csv } },
             res) := by
  have hnone := apiKey_isNone_false hk
  constructor
  · unfold fetchAllStockData
    rw [if_neg (by simp [hnone])]
    rfl
  · intro st1 res h
    unfold fetchAllStockData at h
    rw [if_neg (by simp [hnone])] at h
    dsimp only at h
    rw [show updateLastUpdateTime cfg env
        (cfg.companies.foldl (ingestStep env cfg.days) (store, ⟨0, 0, 0⟩)).1 =
        (cfg.companies.foldl (ingestStep env cfg.days) (store, ⟨0, 0, 0⟩)).1 from by
      unfold updateLastUpdateTime
      rw [if_pos hm]] at h
    injection h with h2
    rw [Prod.mk.injEq] at h2
    obtain ⟨h3, h4⟩ := h2
    subst h3
    subst h4
    constructor
    · exact foldl_meta_eq env cfg.days cfg.companies (store, ⟨0, 0, 0⟩)
    · have hstep : ingestStep { env with metaWriteFails := false } = ingestStep env := rfl
      unfold fetchAllStockData
      rw [if_neg (by simp [hnone])]
      dsimp only
      rw [hstep]
      unfold updateLastUpdateTime
      rw [if_neg (by simp)]

/-- Witness for C10 on the concrete failing run: with the metadata write
failing the run returns the same counters and keeps the absent sidecar;
with it working the sidecar is rewritten. -/
theorem metaWriteFailure_swallowed_witness :
    (fetchAllStockData ⟨[aaplSpec], 30⟩ wRunEnvMetaFail preStore).isOk = true ∧
    (⟨true, some [rowD1], none⟩ : StoreState).meta = preStore.meta ∧
    fetchAllStockData ⟨[aaplSpec], 30⟩
        { wRunEnvMetaFail with metaWriteFails := false } preStore =
      .ok ({ (⟨true, some [rowD1], none⟩ : StoreState) with
               meta := some { lastUpdate := (777 : Int)
                              totalCompanies := 1
                              dataPoints := 1 } },
           ⟨0, 1, 0⟩) := by
  have h := metaWriteFailure_swallowed ⟨[aaplSpec], 30⟩ wRunEnvMetaFail preStore
    rfl rfl
  have h2 := h.2 ⟨true, some [rowD1], none⟩ ⟨0, 1, 0⟩ rfl
  exact ⟨h.1, h2.1, h2.2⟩

end StockAgent
